import Mathlib

/- Verification of critter_lunar_cycle.py against its specification.

   Shallow embedding conventions:
   - Calendar dates are proleptic-Gregorian (year, month, day) triples, exactly
     the fields of Python's datetime.date; year is unrestricted in the pure
     date arithmetic, while the constructor-validated entry points check
     Python's MINYEAR = 1 and MAXYEAR = 9999 bounds.
   - A datetime instant is a rational number of days on Python's ordinal
     scale, where date(1, 1, 1) is day 1; subtracting two instants and taking
     .total_seconds() / 86400 is then exact rational subtraction.
   - Python float arithmetic is idealised as exact rational arithmetic, and
     Python's floor-division // and modulo % (floored, with positive divisors
     throughout) are Int's Euclidean / and %, which agree with floored
     division whenever the divisor is positive. -/

/-- The LUNAR_PHASES constant: the eight phase labels in fixed chart order. -/
def LUNAR_PHASES : List String :=
  ["New Moon", "Waxing Crescent", "First Quarter", "Waxing Gibbous",
   "Full Moon", "Waning Gibbous", "Last Quarter", "Waning Crescent"]

/-- A calendar date: the (year, month, day) fields of a Python datetime. -/
structure Date where
  year : Int
  month : Nat
  day : Nat
deriving DecidableEq, Repr

/-- Leap-year test used by Python's datetime module:
    y % 4 == 0 and (y % 100 != 0 or y % 400 == 0). -/
def isLeap (y : Int) : Bool :=
  y % 4 == 0 && (y % 100 != 0 || y % 400 == 0)

/-- Length of month m of year y (datetime's days-in-month table). -/
def daysInMonth (y : Int) : Nat → Nat
  | 1 => 31
  | 2 => if isLeap y then 29 else 28
  | 3 => 31
  | 4 => 30
  | 5 => 31
  | 6 => 30
  | 7 => 31
  | 8 => 31
  | 9 => 30
  | 10 => 31
  | 11 => 30
  | 12 => 31
  | _ => 0

/-- Days in year y strictly before month m (datetime's days-before-month table). -/
def daysBeforeMonth (y : Int) : Nat → Nat
  | 1 => 0
  | 2 => 31
  | 3 => 59 + (if isLeap y then 1 else 0)
  | 4 => 90 + (if isLeap y then 1 else 0)
  | 5 => 120 + (if isLeap y then 1 else 0)
  | 6 => 151 + (if isLeap y then 1 else 0)
  | 7 => 181 + (if isLeap y then 1 else 0)
  | 8 => 212 + (if isLeap y then 1 else 0)
  | 9 => 243 + (if isLeap y then 1 else 0)
  | 10 => 273 + (if isLeap y then 1 else 0)
  | 11 => 304 + (if isLeap y then 1 else 0)
  | 12 => 334 + (if isLeap y then 1 else 0)
  | _ => 0

/-- Days strictly before January 1 of year y (datetime's days-before-year):
    (y-1)*365 + (y-1)//4 - (y-1)//100 + (y-1)//400.  Divisors are positive, so
    Python's floored // coincides with Int's Euclidean /. -/
def daysBeforeYear (y : Int) : Int :=
  365 * (y - 1) + (y - 1) / 4 - (y - 1) / 100 + (y - 1) / 400

/-- Python's date.toordinal; date(1, 1, 1).toordinal() = 1. -/
def toordinal (dt : Date) : Int :=
  daysBeforeYear dt.year + (daysBeforeMonth dt.year dt.month : Int) + (dt.day : Int)

/-- Instant (in days on the ordinal scale) of datetime(y, m, d, hh, mi). -/
def datetimeInstant (y : Int) (m d hh mi : Nat) : ℚ :=
  (toordinal ⟨y, m, d⟩ : ℚ) + ((hh : ℚ) * 3600 + (mi : ℚ) * 60) / 86400

/-- Midnight instant of a date, as produced by datetime(year, month, day). -/
def dtInstant (dt : Date) : ℚ := (toordinal dt : ℚ)

/-- known_new_moon = datetime(2000, 1, 6, 18, 14), from calculate_lunar_phase. -/
def known_new_moon : ℚ := datetimeInstant 2000 1 6 18 14

/-- lunar_cycle_days = 29.53058867, from calculate_lunar_phase. -/
def lunar_cycle_days : ℚ := 29.53058867

/-- Python's % on rationals: floored modulo a - b * floor(a / b), which is
    non-negative whenever b is positive. -/
def pymod (a b : ℚ) : ℚ := a - b * ⌊a / b⌋

/-- days_since_new_moon as computed in calculate_lunar_phase:
    (date - known_new_moon).total_seconds() / 86400, exact on instants. -/
def days_since_new_moon (date : ℚ) : ℚ := date - known_new_moon

/-- normalized_phase as computed in calculate_lunar_phase:
    (days_since_new_moon % lunar_cycle_days) / lunar_cycle_days. -/
def normalized_phase (date : ℚ) : ℚ :=
  pymod (days_since_new_moon date) lunar_cycle_days / lunar_cycle_days

/-- The if/elif bucket chain of calculate_lunar_phase, as a function of the
    normalized phase fraction. -/
def phase_label (f : ℚ) : String :=
  if f < 0.03 ∨ f ≥ 0.97 then "New Moon"
  else if f < 0.25 then "Waxing Crescent"
  else if f < 0.27 then "First Quarter"
  else if f < 0.50 then "Waxing Gibbous"
  else if f < 0.53 then "Full Moon"
  else if f < 0.75 then "Waning Gibbous"
  else if f < 0.77 then "Last Quarter"
  else "Waning Crescent"

/-- calculate_lunar_phase on an instant (a datetime value). -/
def calculate_lunar_phase (date : ℚ) : String :=
  phase_label (normalized_phase date)

lemma lunar_cycle_days_pos : 0 < lunar_cycle_days := by norm_num [lunar_cycle_days]

lemma normalized_phase_eq_fract (t : ℚ) :
    normalized_phase t = Int.fract ((t - known_new_moon) / lunar_cycle_days) := by
  have hne : lunar_cycle_days ≠ 0 := ne_of_gt lunar_cycle_days_pos
  unfold normalized_phase pymod days_since_new_moon Int.fract
  field_simp

lemma normalized_phase_nonneg (t : ℚ) : 0 ≤ normalized_phase t := by
  rw [normalized_phase_eq_fract]
  exact Int.fract_nonneg _

lemma normalized_phase_lt_one (t : ℚ) : normalized_phase t < 1 := by
  rw [normalized_phase_eq_fract]
  exact Int.fract_lt_one _

lemma phase_label_mem (f : ℚ) : phase_label f ∈ LUNAR_PHASES := by
  unfold phase_label LUNAR_PHASES
  split_ifs <;> simp

lemma calculate_lunar_phase_mem (t : ℚ) : calculate_lunar_phase t ∈ LUNAR_PHASES :=
  phase_label_mem _

/-- C2: on every instant, calculate_lunar_phase computes
    phase_fraction = (elapsed_days mod 29.53058867) / 29.53058867 with the
    mathematical (floored, hence non-negative) modulo, so the fraction lies in
    [0, 1) even for instants before the reference epoch, and the function
    totally and deterministically returns one of the eight labels, raising no
    exception. -/
theorem C2_total_fraction_in_unit_interval (t : ℚ) :
    (0 ≤ normalized_phase t ∧ normalized_phase t < 1) ∧
    calculate_lunar_phase t ∈ LUNAR_PHASES :=
  ⟨⟨normalized_phase_nonneg t, normalized_phase_lt_one t⟩, calculate_lunar_phase_mem t⟩

/-- C9: at the reference epoch datetime(2000, 1, 6, 18, 14) itself the elapsed
    time is zero, the phase fraction is 0.0, and calculate_lunar_phase returns
    "New Moon". -/
theorem C9_epoch_is_new_moon :
    normalized_phase (datetimeInstant 2000 1 6 18 14) = 0 ∧
    calculate_lunar_phase (datetimeInstant 2000 1 6 18 14) = "New Moon" := by
  have h0 : normalized_phase (datetimeInstant 2000 1 6 18 14) = 0 := by
    rw [normalized_phase_eq_fract]
    rw [show datetimeInstant 2000 1 6 18 14 - known_new_moon = 0 from by
      rw [known_new_moon]; ring]
    norm_num
  refine ⟨h0, ?_⟩
  rw [calculate_lunar_phase, h0]
  norm_num [phase_label]

set_option maxHeartbeats 2000000 in
lemma phase_label_iff (f : ℚ) (hf0 : 0 ≤ f) (hf1 : f < 1) :
    (phase_label f = "New Moon" ↔ (f < 0.03 ∨ 0.97 ≤ f)) ∧
    (phase_label f = "Waxing Crescent" ↔ (0.03 ≤ f ∧ f < 0.25)) ∧
    (phase_label f = "First Quarter" ↔ (0.25 ≤ f ∧ f < 0.27)) ∧
    (phase_label f = "Waxing Gibbous" ↔ (0.27 ≤ f ∧ f < 0.50)) ∧
    (phase_label f = "Full Moon" ↔ (0.50 ≤ f ∧ f < 0.53)) ∧
    (phase_label f = "Waning Gibbous" ↔ (0.53 ≤ f ∧ f < 0.75)) ∧
    (phase_label f = "Last Quarter" ↔ (0.75 ≤ f ∧ f < 0.77)) ∧
    (phase_label f = "Waning Crescent" ↔ (0.77 ≤ f ∧ f < 0.97)) := by
  unfold phase_label
  split_ifs with h1 h2 h3 h4 h5 h6 h7 <;>
    (try push_neg at h1) <;>
    (try obtain ⟨h1a, h1b⟩ := h1) <;>
    (try push_neg at h2) <;>
    (try push_neg at h3) <;>
    (try push_neg at h4) <;>
    (try push_neg at h5) <;>
    (try push_neg at h6) <;>
    (try push_neg at h7) <;>
    refine ⟨?_, ?_, ?_, ?_, ?_, ?_, ?_, ?_⟩ <;>
    constructor <;>
    intro hx <;>
    first
      | rfl
      | exact absurd hx (by decide)
      | exact h1
      | exact ⟨by linarith, by linarith⟩
      | (exfalso; rcases hx with hx | hx <;> linarith)
      | (exfalso; linarith [hx.1, hx.2])
      | (exfalso; rcases h1 with h1 | h1 <;> linarith [hx.1, hx.2])

/-- C1: for every instant, so for every realizable phase_fraction value f in
    [0, 1), calculate_lunar_phase assigns exactly the bucket given by the
    half-open boundary table: New Moon iff f < 0.03 or f >= 0.97, Waxing
    Crescent iff 0.03 <= f < 0.25, First Quarter iff 0.25 <= f < 0.27, Waxing
    Gibbous iff 0.27 <= f < 0.50, Full Moon iff 0.50 <= f < 0.53, Waning
    Gibbous iff 0.53 <= f < 0.75, Last Quarter iff 0.75 <= f < 0.77, Waning
    Crescent iff 0.77 <= f < 0.97. -/
theorem C1_bucket_boundaries (t : ℚ) :
    (calculate_lunar_phase t = "New Moon" ↔
      (normalized_phase t < 0.03 ∨ 0.97 ≤ normalized_phase t)) ∧
    (calculate_lunar_phase t = "Waxing Crescent" ↔
      (0.03 ≤ normalized_phase t ∧ normalized_phase t < 0.25)) ∧
    (calculate_lunar_phase t = "First Quarter" ↔
      (0.25 ≤ normalized_phase t ∧ normalized_phase t < 0.27)) ∧
    (calculate_lunar_phase t = "Waxing Gibbous" ↔
      (0.27 ≤ normalized_phase t ∧ normalized_phase t < 0.50)) ∧
    (calculate_lunar_phase t = "Full Moon" ↔
      (0.50 ≤ normalized_phase t ∧ normalized_phase t < 0.53)) ∧
    (calculate_lunar_phase t = "Waning Gibbous" ↔
      (0.53 ≤ normalized_phase t ∧ normalized_phase t < 0.75)) ∧
    (calculate_lunar_phase t = "Last Quarter" ↔
      (0.75 ≤ normalized_phase t ∧ normalized_phase t < 0.77)) ∧
    (calculate_lunar_phase t = "Waning Crescent" ↔
      (0.77 ≤ normalized_phase t ∧ normalized_phase t < 0.97)) :=
  phase_label_iff (normalized_phase t) (normalized_phase_nonneg t)
    (normalized_phase_lt_one t)

/-- Phase fractions strictly inside a bucket: every boundary point of the
    bucket table (including the wrap-around point 0) is avoided. -/
def BucketInterior (f : ℚ) : Prop :=
  f ≠ 0 ∧ f ≠ 0.03 ∧ f ≠ 0.25 ∧ f ≠ 0.27 ∧ f ≠ 0.50 ∧
  f ≠ 0.53 ∧ f ≠ 0.75 ∧ f ≠ 0.77 ∧ f ≠ 0.97

lemma normalized_phase_add_period (t : ℚ) :
    normalized_phase (t + lunar_cycle_days) = normalized_phase t := by
  rw [normalized_phase_eq_fract, normalized_phase_eq_fract]
  have hne : lunar_cycle_days ≠ 0 := ne_of_gt lunar_cycle_days_pos
  rw [show (t + lunar_cycle_days - known_new_moon) / lunar_cycle_days =
      (t - known_new_moon) / lunar_cycle_days + 1 from by field_simp; ring]
  exact Int.fract_add_one _

/-- C6: calculate_lunar_phase is periodic with period 29.53058867 days: for
    every instant t whose phase fraction lies in a bucket interior,
    calculate_lunar_phase (t + lunar_cycle_days) = calculate_lunar_phase t
    (exact here, since the arithmetic is embedded over exact rationals). -/
theorem C6_periodic (t : ℚ) (h : BucketInterior (normalized_phase t)) :
    calculate_lunar_phase (t + lunar_cycle_days) = calculate_lunar_phase t := by
  unfold calculate_lunar_phase
  rw [normalized_phase_add_period]

/-- Witness for C6 at one day past the reference new moon, whose phase
    fraction 1/29.53058867 is interior to the New Moon bucket. -/
theorem C6_periodic_witness :
    BucketInterior (normalized_phase (known_new_moon + 1)) ∧
    calculate_lunar_phase (known_new_moon + 1 + lunar_cycle_days) =
      calculate_lunar_phase (known_new_moon + 1) := by
  have hval : normalized_phase (known_new_moon + 1) = 100000000 / 2953058867 := by
    rw [normalized_phase_eq_fract]
    rw [show (known_new_moon + 1 - known_new_moon) / lunar_cycle_days =
        (100000000 : ℚ) / 2953058867 from by norm_num [lunar_cycle_days]]
    rw [Int.fract_eq_self.2 ⟨by norm_num, by norm_num⟩]
  have hint : BucketInterior (normalized_phase (known_new_moon + 1)) := by
    rw [hval]
    unfold BucketInterior
    norm_num
  exact ⟨hint, C6_periodic (known_new_moon + 1) hint⟩

/-- Effect on the date fields of adding timedelta(days=1) to a datetime. -/
def nextDay (dt : Date) : Date :=
  if dt.day < daysInMonth dt.year dt.month then ⟨dt.year, dt.month, dt.day + 1⟩
  else if dt.month < 12 then ⟨dt.year, dt.month + 1, 1⟩
  else ⟨dt.year + 1, 1, 1⟩

/-- Effect on the date fields of subtracting timedelta(days=1). -/
def prevDay (dt : Date) : Date :=
  if 1 < dt.day then ⟨dt.year, dt.month, dt.day - 1⟩
  else if 1 < dt.month then ⟨dt.year, dt.month - 1, daysInMonth dt.year (dt.month - 1)⟩
  else ⟨dt.year - 1, 12, 31⟩

/-- Effect of adding timedelta(days=n). -/
def addDays : Date → Nat → Date
  | dt, 0 => dt
  | dt, n + 1 => addDays (nextDay dt) n

/-- The .replace(day=d) operation on a datetime. -/
def replaceDay (dt : Date) (d : Nat) : Date := ⟨dt.year, dt.month, d⟩

/-- Python's datetime comparison current <= end; on valid dates the
    field-lexicographic datetime order coincides with ordinal order. -/
def dateLe (a b : Date) : Bool := toordinal a ≤ toordinal b

/-- Month/day bounds of a well-formed date triple. -/
def ValidMD (dt : Date) : Prop :=
  1 ≤ dt.month ∧ dt.month ≤ 12 ∧ 1 ≤ dt.day ∧ dt.day ≤ daysInMonth dt.year dt.month

lemma daysInMonth_pos (y : Int) (m : Nat) (h1 : 1 ≤ m) (h2 : m ≤ 12) :
    1 ≤ daysInMonth y m := by
  interval_cases m <;> simp [daysInMonth] <;> split <;> norm_num

lemma daysInMonth_le_31 (y : Int) (m : Nat) (h1 : 1 ≤ m) (h2 : m ≤ 12) :
    daysInMonth y m ≤ 31 := by
  interval_cases m <;> simp [daysInMonth] <;> split <;> norm_num

lemma isLeap_iff (y : Int) :
    isLeap y = true ↔ (y % 4 = 0 ∧ (y % 100 ≠ 0 ∨ y % 400 = 0)) := by
  simp [isLeap]

lemma daysBeforeYear_succ (y : Int) :
    daysBeforeYear (y + 1) =
      daysBeforeYear y + 365 + (if isLeap y then 1 else 0) := by
  unfold daysBeforeYear
  split_ifs with hl
  · rw [isLeap_iff] at hl
    obtain ⟨h4, hb⟩ := hl
    rcases hb with hb | hb <;> omega
  · rw [isLeap_iff] at hl
    push_neg at hl
    by_cases h4 : y % 4 = 0
    · obtain ⟨h100, h400⟩ := hl h4
      omega
    · omega

lemma daysBeforeMonth_succ (y : Int) (m : Nat) (h1 : 1 ≤ m) (h2 : m ≤ 11) :
    daysBeforeMonth y (m + 1) = daysBeforeMonth y m + daysInMonth y m := by
  interval_cases m <;> by_cases hl : isLeap y <;>
    simp [daysBeforeMonth, daysInMonth, hl]

lemma toordinal_nextDay (dt : Date) (h : ValidMD dt) :
    toordinal (nextDay dt) = toordinal dt + 1 := by
  obtain ⟨y, m, d⟩ := dt
  obtain ⟨hm1, hm2, hd1, hd2⟩ := h
  replace hm1 : 1 ≤ m := hm1
  replace hm2 : m ≤ 12 := hm2
  replace hd1 : 1 ≤ d := hd1
  replace hd2 : d ≤ daysInMonth y m := hd2
  unfold nextDay
  split_ifs with hlt hm
  · simp only [toordinal]
    push_cast
    ring
  · have hd : d = daysInMonth y m := by
      replace hlt : ¬ d < daysInMonth y m := hlt
      omega
    have hms : daysBeforeMonth y (m + 1) = daysBeforeMonth y m + daysInMonth y m :=
      daysBeforeMonth_succ y m hm1 (by replace hm : m < 12 := hm; omega)
    simp only [toordinal]
    rw [hms, hd]
    push_cast
    ring
  · have hm12 : m = 12 := by replace hm : ¬ m < 12 := hm; omega
    subst hm12
    have hd : d = 31 := by
      replace hlt : ¬ d < daysInMonth y 12 := hlt
      simp only [daysInMonth] at hd2 hlt
      omega
    subst hd
    have hy := daysBeforeYear_succ y
    simp only [toordinal, daysBeforeMonth, daysInMonth]
    rw [hy]
    by_cases hl : isLeap y <;> simp only [hl, if_true, if_false] <;> push_cast <;> ring

lemma validMD_nextDay (dt : Date) (h : ValidMD dt) : ValidMD (nextDay dt) := by
  obtain ⟨y, m, d⟩ := dt
  obtain ⟨hm1, hm2, hd1, hd2⟩ := h
  replace hm1 : 1 ≤ m := hm1
  replace hm2 : m ≤ 12 := hm2
  replace hd1 : 1 ≤ d := hd1
  replace hd2 : d ≤ daysInMonth y m := hd2
  unfold nextDay ValidMD
  split_ifs with hlt hm
  · replace hlt : d < daysInMonth y m := hlt
    simp only
    omega
  · replace hm : m < 12 := hm
    simp only
    refine ⟨by omega, by omega, by omega, ?_⟩
    exact daysInMonth_pos y (m + 1) (by omega) (by omega)
  · simp [daysInMonth]

lemma toordinal_addDays (n : Nat) :
    ∀ dt : Date, ValidMD dt →
      toordinal (addDays dt n) = toordinal dt + n ∧ ValidMD (addDays dt n) := by
  induction n with
  | zero => intro dt h; simpa [addDays] using h
  | succ k ih =>
    intro dt h
    have hstep : addDays dt (k + 1) = addDays (nextDay dt) k := rfl
    obtain ⟨h1, h2⟩ := ih (nextDay dt) (validMD_nextDay dt h)
    rw [hstep, h1, toordinal_nextDay dt h]
    exact ⟨by push_cast; ring, h2⟩

lemma addDays_within_month (y : Int) (m : Nat) :
    ∀ i d : Nat, 1 ≤ d → d + i ≤ daysInMonth y m →
      addDays ⟨y, m, d⟩ i = ⟨y, m, d + i⟩ := by
  intro i
  induction i with
  | zero => intro d _ _; simp [addDays]
  | succ k ih =>
    intro d hd1 hdk
    have hstep : addDays ⟨y, m, d⟩ (k + 1) = addDays (nextDay ⟨y, m, d⟩) k := rfl
    have hnext : nextDay ⟨y, m, d⟩ = ⟨y, m, d + 1⟩ := by
      unfold nextDay
      rw [if_pos]
      simp only
      omega
    rw [hstep, hnext, ih (d + 1) (by omega) (by omega)]
    congr 1
    omega

set_option maxHeartbeats 1000000 in
lemma addDays32_eq (y : Int) (m : Nat) (h1 : 1 ≤ m) (h2 : m ≤ 12) :
    addDays ⟨y, m, 1⟩ 32 =
      ⟨if m = 12 then y + 1 else y, if m = 12 then 1 else m + 1,
       33 - daysInMonth y m⟩ := by
  interval_cases m <;> by_cases hl : isLeap y <;>
    simp [addDays, nextDay, daysInMonth, hl]

set_option maxHeartbeats 1000000 in
lemma month_end_eq (y : Int) (m : Nat) (h1 : 1 ≤ m) (h2 : m ≤ 12) :
    prevDay (replaceDay (addDays ⟨y, m, 1⟩ 32) 1) = ⟨y, m, daysInMonth y m⟩ := by
  interval_cases m <;> by_cases hl : isLeap y <;>
    simp [addDays, nextDay, daysInMonth, prevDay, replaceDay, hl]

lemma addDays32_year (y : Int) (m : Nat) (h1 : 1 ≤ m) (h2 : m ≤ 12) :
    (addDays ⟨y, m, 1⟩ 32).year = if m = 12 then y + 1 else y := by
  rw [addDays32_eq y m h1 h2]

/-- Day-by-day loop of get_lunar_cycle_for_month: while current_date <=
    end_date, record calculate_lunar_phase(current_date) under the
    current_date key and advance by timedelta(days=1).  The fuel argument only
    makes the recursion structural; 40 exceeds every month length, and the
    loop is proved below to exit through its condition with fuel to spare. -/
def lunarLoop (endD : Date) : Nat → Date → List (Date × String)
  | 0, _ => []
  | fuel + 1, cur =>
    if dateLe cur endD then
      (cur, calculate_lunar_phase (dtInstant cur)) :: lunarLoop endD fuel (nextDay cur)
    else []

/-- Body of get_lunar_cycle_for_month once the datetime constructions have
    succeeded: start_date = datetime(year, month, 1), end_date =
    (start_date + timedelta(days=32)).replace(day=1) - timedelta(days=1),
    then the day loop keyed by date. -/
def get_lunar_cycle_core (y : Int) (m : Nat) : List (Date × String) :=
  lunarLoop (prevDay (replaceDay (addDays ⟨y, m, 1⟩ 32) 1)) 40 ⟨y, m, 1⟩

/-- Python datetime's MINYEAR bound. -/
def MINYEAR : Int := 1

/-- Python datetime's MAXYEAR bound. -/
def MAXYEAR : Int := 9999

/-- get_lunar_cycle_for_month with the checks Python's datetime performs:
    datetime(year, month, 1) raises ValueError when month is outside 1..12 or
    year is outside MINYEAR..MAXYEAR, and start_date + timedelta(days=32)
    raises OverflowError when the sum falls beyond datetime.max, which for
    day-1 start dates happens exactly for December 9999. -/
def get_lunar_cycle_for_month (y : Int) (m : Nat) :
    Except String (List (Date × String)) :=
  if ¬ (MINYEAR ≤ y ∧ y ≤ MAXYEAR ∧ 1 ≤ m ∧ m ≤ 12) then .error "ValueError"
  else if MAXYEAR < (addDays ⟨y, m, 1⟩ 32).year then .error "OverflowError"
  else .ok (get_lunar_cycle_core y m)

lemma lunarLoop_stop (endD : Date) (fuel : Nat) (cur : Date)
    (h : ¬ toordinal cur ≤ toordinal endD) : lunarLoop endD fuel cur = [] := by
  cases fuel <;> simp [lunarLoop, dateLe, h]

lemma addDays_succ (dt : Date) (n : Nat) :
    addDays dt (n + 1) = addDays (nextDay dt) n := rfl

lemma map_range_succ_cons {α : Type} (f : Nat → α) (n : Nat) :
    (List.range (n + 1)).map f = f 0 :: (List.range n).map (fun i => f (i + 1)) := by
  rw [List.range_succ_eq_map]
  simp [Function.comp]

lemma lunarLoop_eq_map (endD : Date) (fuel : Nat) :
    ∀ cur : Date, ValidMD cur → toordinal cur ≤ toordinal endD →
      (toordinal endD - toordinal cur).toNat < fuel →
      lunarLoop endD fuel cur =
        (List.range ((toordinal endD - toordinal cur).toNat + 1)).map
          (fun i => (addDays cur i, calculate_lunar_phase (dtInstant (addDays cur i)))) := by
  induction fuel with
  | zero => intro cur _ _ hf; omega
  | succ k ih =>
    intro cur hv hle hf
    have hcond : dateLe cur endD = true := by
      simp only [dateLe, decide_eq_true_eq]
      exact hle
    have hunf : lunarLoop endD (k + 1) cur =
        (cur, calculate_lunar_phase (dtInstant cur)) :: lunarLoop endD k (nextDay cur) := by
      simp [lunarLoop, hcond]
    rw [hunf]
    have hnord : toordinal (nextDay cur) = toordinal cur + 1 := toordinal_nextDay cur hv
    by_cases hg : toordinal cur = toordinal endD
    · have hstop : lunarLoop endD k (nextDay cur) = [] :=
        lunarLoop_stop endD k (nextDay cur) (by omega)
      rw [hstop]
      have hzero : (toordinal endD - toordinal cur).toNat = 0 := by omega
      rw [hzero]
      conv_rhs => rw [map_range_succ_cons]
      simp [addDays]
    · have hlt : toordinal cur < toordinal endD := lt_of_le_of_ne hle hg
      have hrec := ih (nextDay cur) (validMD_nextDay cur hv) (by omega) (by omega)
      rw [hrec]
      have hgap : (toordinal endD - toordinal cur).toNat =
          (toordinal endD - toordinal (nextDay cur)).toNat + 1 := by omega
      rw [hgap]
      conv_rhs => rw [map_range_succ_cons]
      congr 1

lemma toordinal_same_month (y : Int) (m : Nat) (d : Nat) :
    toordinal ⟨y, m, d⟩ = daysBeforeYear y + (daysBeforeMonth y m : Int) + (d : Int) := rfl

lemma get_lunar_cycle_core_eq (y : Int) (m : Nat) (h1 : 1 ≤ m) (h2 : m ≤ 12) :
    get_lunar_cycle_core y m =
      (List.range (daysInMonth y m)).map
        (fun i => (⟨y, m, 1 + i⟩,
          calculate_lunar_phase (dtInstant ⟨y, m, 1 + i⟩))) := by
  unfold get_lunar_cycle_core
  rw [month_end_eq y m h1 h2]
  have hdim1 : 1 ≤ daysInMonth y m := daysInMonth_pos y m h1 h2
  have hdim31 : daysInMonth y m ≤ 31 := daysInMonth_le_31 y m h1 h2
  have hv : ValidMD ⟨y, m, 1⟩ := ⟨h1, h2, le_refl 1, hdim1⟩
  have hord : toordinal ⟨y, m, daysInMonth y m⟩ - toordinal ⟨y, m, 1⟩ =
      (daysInMonth y m : Int) - 1 := by
    rw [toordinal_same_month, toordinal_same_month]
    ring
  have hle : toordinal ⟨y, m, 1⟩ ≤ toordinal ⟨y, m, daysInMonth y m⟩ := by omega
  have hfuel : (toordinal ⟨y, m, daysInMonth y m⟩ - toordinal ⟨y, m, 1⟩).toNat < 40 := by
    omega
  rw [lunarLoop_eq_map _ 40 ⟨y, m, 1⟩ hv hle hfuel]
  have hcount : (toordinal ⟨y, m, daysInMonth y m⟩ - toordinal ⟨y, m, 1⟩).toNat + 1 =
      daysInMonth y m := by omega
  rw [hcount]
  apply List.map_congr_left
  intro i hi
  rw [List.mem_range] at hi
  rw [addDays_within_month y m i 1 (le_refl 1) (by omega)]

lemma get_lunar_cycle_for_month_ok (y : Int) (m : Nat) (hy1 : 1 ≤ y) (hy2 : y ≤ 9999)
    (hm1 : 1 ≤ m) (hm2 : m ≤ 12) (hnot : ¬ (y = 9999 ∧ m = 12)) :
    get_lunar_cycle_for_month y m = .ok (get_lunar_cycle_core y m) := by
  unfold get_lunar_cycle_for_month MINYEAR MAXYEAR
  rw [if_neg (not_not_intro ⟨hy1, hy2, hm1, hm2⟩)]
  rw [if_neg]
  rw [addDays32_year y m hm1 hm2]
  split_ifs with h12
  · omega
  · omega

/-- C3 (amended to Python's representable year range): for every year in
    MINYEAR..MAXYEAR and month in 1..12 other than December 9999,
    get_lunar_cycle_for_month succeeds with a table holding exactly one entry
    per calendar day, keyed consecutively from day 1 through the month's last
    day daysInMonth(y, m) (computed as first-of-next-month minus one day,
    rolling December to January of the next year), every value being one of
    the eight lunar-phase labels. -/
theorem C3_month_table (y : Int) (m : Nat) (hy1 : 1 ≤ y) (hy2 : y ≤ 9999)
    (hm1 : 1 ≤ m) (hm2 : m ≤ 12) (hnot : ¬ (y = 9999 ∧ m = 12)) :
    ∃ tbl, get_lunar_cycle_for_month y m = .ok tbl ∧
      tbl.length = daysInMonth y m ∧
      tbl.map Prod.fst = (List.range (daysInMonth y m)).map (fun i => ⟨y, m, 1 + i⟩) ∧
      ∀ e ∈ tbl, e.2 ∈ LUNAR_PHASES := by
  refine ⟨get_lunar_cycle_core y m,
    get_lunar_cycle_for_month_ok y m hy1 hy2 hm1 hm2 hnot, ?_, ?_, ?_⟩
  · rw [get_lunar_cycle_core_eq y m hm1 hm2]
    simp
  · rw [get_lunar_cycle_core_eq y m hm1 hm2]
    rw [List.map_map]
    rfl
  · intro e he
    rw [get_lunar_cycle_core_eq y m hm1 hm2] at he
    rw [List.mem_map] at he
    obtain ⟨i, _, rfl⟩ := he
    exact calculate_lunar_phase_mem _

/-- Counterexample to C3 as frozen: the claim quantifies over every integer
    year, but at year 10000 (outside Python's datetime range) the code raises
    ValueError instead of returning a table. -/
theorem C3_counterexample :
    get_lunar_cycle_for_month 10000 1 = .error "ValueError" := by
  unfold get_lunar_cycle_for_month MINYEAR MAXYEAR
  rw [if_pos]
  omega

/-- Witness for C3 at the claim's own instances: February 2024 yields 29
    consecutively-keyed entries and February 2023 yields 28. -/
theorem C3_month_table_witness :
    (∃ tbl, get_lunar_cycle_for_month 2024 2 = .ok tbl ∧
      tbl.length = 29 ∧
      tbl.map Prod.fst = (List.range 29).map (fun i => ⟨2024, 2, 1 + i⟩) ∧
      ∀ e ∈ tbl, e.2 ∈ LUNAR_PHASES) ∧
    (∃ tbl, get_lunar_cycle_for_month 2023 2 = .ok tbl ∧
      tbl.length = 28 ∧
      tbl.map Prod.fst = (List.range 28).map (fun i => ⟨2023, 2, 1 + i⟩) ∧
      ∀ e ∈ tbl, e.2 ∈ LUNAR_PHASES) := by
  constructor
  · obtain ⟨tbl, h1, h2, h3, h4⟩ :=
      C3_month_table 2024 2 (by norm_num) (by norm_num) (by norm_num) (by norm_num)
        (by norm_num)
    rw [show daysInMonth 2024 2 = 29 from by decide] at h2 h3
    exact ⟨tbl, h1, h2, h3, h4⟩
  · obtain ⟨tbl, h1, h2, h3, h4⟩ :=
      C3_month_table 2023 2 (by norm_num) (by norm_num) (by norm_num) (by norm_num)
        (by norm_num)
    rw [show daysInMonth 2023 2 = 28 from by decide] at h2 h3
    exact ⟨tbl, h1, h2, h3, h4⟩

/-- C4 (amended to Python's representable year range): get_lunar_cycle_for_month
    fails with the ValueError InvalidInput condition whenever month is outside
    1..12 (for any year), and succeeds for every year in MINYEAR..MAXYEAR with
    a valid month other than December 9999 — in particular for years before
    the reference epoch. -/
theorem C4_month_validation (y : Int) (m : Nat) :
    (¬ (1 ≤ m ∧ m ≤ 12) → get_lunar_cycle_for_month y m = .error "ValueError") ∧
    ((1 ≤ y ∧ y ≤ 9999 ∧ 1 ≤ m ∧ m ≤ 12 ∧ ¬ (y = 9999 ∧ m = 12)) →
      ∃ tbl, get_lunar_cycle_for_month y m = .ok tbl) := by
  constructor
  · intro hm
    unfold get_lunar_cycle_for_month MINYEAR MAXYEAR
    rw [if_pos]
    omega
  · intro ⟨hy1, hy2, hm1, hm2, hnot⟩
    exact ⟨get_lunar_cycle_core y m,
      get_lunar_cycle_for_month_ok y m hy1 hy2 hm1 hm2 hnot⟩

/-- Counterexample to C4 as frozen: the claim asserts success for any integer
    year whatsoever, but at year 0 (below Python's MINYEAR) the code raises
    ValueError for a perfectly valid month. -/
theorem C4_counterexample :
    get_lunar_cycle_for_month 0 1 = .error "ValueError" := by
  unfold get_lunar_cycle_for_month MINYEAR MAXYEAR
  rw [if_pos]
  omega

/-- Witness for C4: month 13 and month 0 fail with ValueError, while the
    pre-epoch year 1999 succeeds. -/
theorem C4_month_validation_witness :
    get_lunar_cycle_for_month 2024 13 = .error "ValueError" ∧
    get_lunar_cycle_for_month 2024 0 = .error "ValueError" ∧
    (∃ tbl, get_lunar_cycle_for_month 1999 2 = .ok tbl) :=
  ⟨(C4_month_validation 2024 13).1 (by omega),
   (C4_month_validation 2024 0).1 (by omega),
   (C4_month_validation 1999 2).2 (by omega)⟩

/-- Value a Python dict holds at key k after inserting the entries of l in
    order (later insertions win), i.e. dict.get(k): None when k was never
    inserted. -/
def dget {α : Type} : List (Date × α) → Date → Option α
  | [], _ => none
  | e :: t, k =>
    match dget t k with
    | some v => some v
    | none => if e.1 = k then some e.2 else none

/-- One step of the accumulation loop in plot_observations_by_lunar_phase: for
    an observed (date, count) entry, look the date up in the lunar_cycle dict;
    when the result is a truthy string (present and non-empty) add count to
    that phase's bucket of the defaultdict(int), otherwise leave the buckets
    untouched. -/
def bucket_step (lunar_cycle : List (Date × String)) (acc : String → Nat)
    (e : Date × Nat) : String → Nat :=
  match dget lunar_cycle e.1 with
  | some p => if p = "" then acc else fun q => if q = p then acc q + e.2 else acc q
  | none => acc

/-- The phase_counts defaultdict of plot_observations_by_lunar_phase after the
    accumulation loop over observations.items(). -/
def phase_counts (observations : List (Date × Nat))
    (lunar_cycle : List (Date × String)) : String → Nat :=
  observations.foldl (bucket_step lunar_cycle) (fun _ => 0)

/-- The bar heights plot_observations_by_lunar_phase renders:
    counts = [phase_counts[phase] for phase in LUNAR_PHASES]. -/
def plot_observations_by_lunar_phase (observations : List (Date × Nat))
    (lunar_cycle : List (Date × String)) : List Nat :=
  LUNAR_PHASES.map (phase_counts observations lunar_cycle)

lemma bucket_step_add (cyc : List (Date × String)) (acc : String → Nat)
    (e : Date × Nat) (q : String) :
    bucket_step cyc acc e q = acc q + bucket_step cyc (fun _ => 0) e q := by
  unfold bucket_step
  cases h : dget cyc e.1 with
  | none => simp
  | some p =>
    dsimp only
    by_cases hp : p = ""
    · rw [if_pos hp, if_pos hp]
      omega
    · rw [if_neg hp, if_neg hp]
      show (if q = p then acc q + e.2 else acc q) =
        acc q + (if q = p then 0 + e.2 else 0)
      by_cases hq : q = p
      · rw [if_pos hq, if_pos hq]
        omega
      · rw [if_neg hq, if_neg hq]
        omega

lemma foldl_bucket_add (cyc : List (Date × String)) (obs : List (Date × Nat)) :
    ∀ (acc : String → Nat) (q : String),
      obs.foldl (bucket_step cyc) acc q =
        acc q + obs.foldl (bucket_step cyc) (fun _ => 0) q := by
  induction obs with
  | nil => intro acc q; simp [List.foldl]
  | cons e t ih =>
    intro acc q
    rw [List.foldl_cons, List.foldl_cons, ih (bucket_step cyc acc e) q,
      ih (bucket_step cyc (fun _ => 0) e) q, bucket_step_add cyc acc e q]
    omega

lemma phase_counts_cons (obs : List (Date × Nat)) (cyc : List (Date × String))
    (e : Date × Nat) (q : String) :
    phase_counts (e :: obs) cyc q =
      bucket_step cyc (fun _ => 0) e q + phase_counts obs cyc q := by
  unfold phase_counts
  rw [List.foldl_cons, foldl_bucket_add cyc obs (bucket_step cyc (fun _ => 0) e) q]

lemma phase_counts_eq_sum (obs : List (Date × Nat)) (cyc : List (Date × String))
    (q : String) :
    phase_counts obs cyc q =
      ((obs.filter (fun e => decide (dget cyc e.1 = some q ∧ q ≠ ""))).map
        Prod.snd).sum := by
  induction obs with
  | nil => rfl
  | cons e t ih =>
    rw [phase_counts_cons t cyc e q]
    by_cases hc : dget cyc e.1 = some q ∧ q ≠ ""
    · rw [List.filter_cons_of_pos (by simpa using hc), List.map_cons, List.sum_cons, ← ih]
      congr 1
      unfold bucket_step
      rw [hc.1]
      dsimp only
      rw [if_neg hc.2]
      show (if q = q then (0 : Nat) + e.2 else 0) = e.2
      rw [if_pos rfl]
      omega
    · rw [List.filter_cons_of_neg (by simpa using hc), ← ih]
      have hz : bucket_step cyc (fun _ => 0) e q = 0 := by
        unfold bucket_step
        cases h : dget cyc e.1 with
        | none => rfl
        | some p =>
          dsimp only
          by_cases hp : p = ""
          · rw [if_pos hp]
          · rw [if_neg hp]
            show (if q = p then (0 : Nat) + e.2 else 0) = 0
            by_cases hq : q = p
            · exfalso
              exact hc ⟨by rw [h, hq], fun h0 => hp (by rw [← hq, h0])⟩
            · rw [if_neg hq]
      omega

lemma dget_eq_none_iff {α : Type} (l : List (Date × α)) (k : Date) :
    dget l k = none ↔ ∀ e ∈ l, e.1 ≠ k := by
  induction l with
  | nil => simp [dget]
  | cons e t ih =>
    rw [dget]
    cases h : dget t k with
    | some v =>
      simp only [reduceCtorEq, false_iff]
      intro hall
      have : ∀ e ∈ t, e.1 ≠ k := fun x hx => hall x (List.mem_cons_of_mem e hx)
      rw [← ih] at this
      rw [this] at h
      exact absurd h (by simp)
    | none =>
      rw [ih] at h
      constructor
      · intro hnone x hx
        rcases List.mem_cons.mp hx with rfl | hx
        · intro hk
          rw [if_pos hk] at hnone
          exact absurd hnone (by simp)
        · exact h x hx
      · intro hall
        rw [if_neg (hall e (List.mem_cons_self e t))]

lemma dget_mem {α : Type} (l : List (Date × α)) (k : Date) (v : α)
    (h : dget l k = some v) : (k, v) ∈ l := by
  induction l with
  | nil => simp [dget] at h
  | cons e t ih =>
    rw [dget] at h
    cases ht : dget t k with
    | some w =>
      rw [ht] at h
      injection h with hv
      subst hv
      exact List.mem_cons_of_mem e (ih ht)
    | none =>
      rw [ht] at h
      by_cases hk : e.1 = k
      · rw [if_pos hk] at h
        injection h with hv
        subst hv
        subst hk
        exact List.mem_cons_self _ _
      · rw [if_neg hk] at h
        exact absurd h (by simp)

lemma dget_of_mem_nodup {α : Type} (l : List (Date × α))
    (hnd : (l.map Prod.fst).Nodup) (k : Date) (v : α) (h : (k, v) ∈ l) :
    dget l k = some v := by
  induction l with
  | nil => simp at h
  | cons e t ih =>
    rw [List.map_cons, List.nodup_cons] at hnd
    rw [dget]
    rcases List.mem_cons.mp h with rfl | hmem
    · have hnone : dget t k = none := by
        rw [dget_eq_none_iff]
        intro x hx hxk
        apply hnd.1
        have hx1 : x.1 ∈ t.map Prod.fst := List.mem_map_of_mem Prod.fst hx
        rw [hxk] at hx1
        exact hx1
      rw [hnone, if_pos rfl]
    · rw [ih hnd.2 hmem]

lemma dget_congr_of_perm {α : Type} (l₁ l₂ : List (Date × α)) (h : l₁.Perm l₂)
    (hnd : (l₁.map Prod.fst).Nodup) (k : Date) : dget l₁ k = dget l₂ k := by
  have hnd₂ : (l₂.map Prod.fst).Nodup := ((h.map Prod.fst).nodup_iff).mp hnd
  cases h₁ : dget l₁ k with
  | some v =>
    exact (dget_of_mem_nodup l₂ hnd₂ k v (h.mem_iff.mp (dget_mem l₁ k v h₁))).symm
  | none =>
    cases h₂ : dget l₂ k with
    | some w =>
      have := h.mem_iff.mpr (dget_mem l₂ k w h₂)
      rw [dget_eq_none_iff] at h₁
      exact absurd rfl (h₁ _ this)
    | none => rfl

lemma mem_LUNAR_PHASES_ne_empty (p : String) (hp : p ∈ LUNAR_PHASES) : p ≠ "" := by
  fin_cases hp <;> decide

/-- C7: in the bucketing loop, an observation entry whose date is absent from
    the lunar_cycle table is a silent no-op (the whole rendered histogram is
    unchanged and no error is possible), while an entry whose date is present
    adds its full count to exactly that date's phase bucket, leaving every
    other bucket unchanged. -/
theorem C7_present_adds_absent_skipped (obs : List (Date × Nat))
    (cyc : List (Date × String)) (d : Date) (c : Nat)
    (h : ∀ e ∈ cyc, e.2 ∈ LUNAR_PHASES) :
    (dget cyc d = none →
      plot_observations_by_lunar_phase ((d, c) :: obs) cyc =
        plot_observations_by_lunar_phase obs cyc) ∧
    (∀ p, dget cyc d = some p →
      phase_counts ((d, c) :: obs) cyc p = c + phase_counts obs cyc p ∧
      ∀ q, q ≠ p → phase_counts ((d, c) :: obs) cyc q = phase_counts obs cyc q) := by
  constructor
  · intro hnone
    unfold plot_observations_by_lunar_phase
    apply List.map_congr_left
    intro q _
    rw [phase_counts_cons]
    have hz : bucket_step cyc (fun _ => 0) (d, c) q = 0 := by
      unfold bucket_step
      rw [hnone]
    omega
  · intro p hp
    have hpm : p ∈ LUNAR_PHASES := h (d, p) (dget_mem cyc d p hp)
    have hpne : p ≠ "" := mem_LUNAR_PHASES_ne_empty p hpm
    constructor
    · rw [phase_counts_cons]
      have hstep : bucket_step cyc (fun _ => 0) (d, c) p = c := by
        unfold bucket_step
        rw [hp]
        dsimp only
        rw [if_neg hpne]
        show (if p = p then (0 : Nat) + c else 0) = c
        rw [if_pos rfl]
        omega
      omega
    · intro q hq
      rw [phase_counts_cons]
      have hstep : bucket_step cyc (fun _ => 0) (d, c) q = 0 := by
        unfold bucket_step
        rw [hp]
        dsimp only
        rw [if_neg hpne]
        show (if q = p then (0 : Nat) + c else 0) = 0
        rw [if_neg hq]
      omega

/-- Witness for C7 on a one-entry table: a present date adds its count to its
    phase's bucket, and a date absent from the table changes nothing. -/
theorem C7_present_adds_absent_skipped_witness :
    (plot_observations_by_lunar_phase
        [(⟨2024, 1, 2⟩, 5)] [(⟨2024, 1, 1⟩, "Full Moon")] =
      plot_observations_by_lunar_phase [] [(⟨2024, 1, 1⟩, "Full Moon")]) ∧
    phase_counts [(⟨2024, 1, 1⟩, 3)] [(⟨2024, 1, 1⟩, "Full Moon")] "Full Moon" =
      3 + phase_counts [] [(⟨2024, 1, 1⟩, "Full Moon")] "Full Moon" := by
  have hmem : ∀ e ∈ [((⟨2024, 1, 1⟩ : Date), "Full Moon")], e.2 ∈ LUNAR_PHASES := by
    intro e he
    fin_cases he
    simp [LUNAR_PHASES]
  constructor
  · exact (C7_present_adds_absent_skipped [] [(⟨2024, 1, 1⟩, "Full Moon")]
      ⟨2024, 1, 2⟩ 5 hmem).1 (by rfl)
  · exact ((C7_present_adds_absent_skipped [] [(⟨2024, 1, 1⟩, "Full Moon")]
      ⟨2024, 1, 1⟩ 3 hmem).2 "Full Moon" (by rfl)).1

lemma bucket_step_zero_none (cyc : List (Date × String)) (e : Date × Nat)
    (hp : dget cyc e.1 = none) (q : String) :
    bucket_step cyc (fun _ => 0) e q = 0 := by
  unfold bucket_step
  rw [hp]

lemma bucket_step_zero_some (cyc : List (Date × String)) (e : Date × Nat)
    (p : String) (hp : dget cyc e.1 = some p) (hpne : p ≠ "") (q : String) :
    bucket_step cyc (fun _ => 0) e q = if q = p then e.2 else 0 := by
  unfold bucket_step
  rw [hp]
  dsimp only
  rw [if_neg hpne]
  show (if q = p then (0 : Nat) + e.2 else 0) = if q = p then e.2 else 0
  by_cases hq : q = p
  · rw [if_pos hq, if_pos hq]
    omega
  · rw [if_neg hq, if_neg hq]

lemma sum_map_indicator_zero (L : List String) (p : String) (c : Nat)
    (hp : p ∉ L) : (L.map (fun q => if q = p then c else 0)).sum = 0 := by
  induction L with
  | nil => rfl
  | cons a t ih =>
    rw [List.mem_cons, not_or] at hp
    rw [List.map_cons, List.sum_cons, if_neg (fun ha => hp.1 ha.symm), ih hp.2]

lemma sum_map_indicator (L : List String) (p : String) (c : Nat)
    (hnd : L.Nodup) (hp : p ∈ L) :
    (L.map (fun q => if q = p then c else 0)).sum = c := by
  induction L with
  | nil => simp at hp
  | cons a t ih =>
    rw [List.nodup_cons] at hnd
    rw [List.map_cons, List.sum_cons]
    rcases List.mem_cons.mp hp with rfl | hmem
    · rw [if_pos rfl, sum_map_indicator_zero t p c hnd.1]
      omega
    · rw [if_neg (fun ha => hnd.1 (by rw [ha]; exact hmem)), ih hnd.2 hmem]
      omega

lemma LUNAR_PHASES_nodup : LUNAR_PHASES.Nodup := by decide

/-- C10: the rendered bar list always has exactly eight entries (one per label
    in fixed order, absent buckets defaulting to zero), and its total equals
    the total of the observation counts whose date key is present in the phase
    table: since every phase label is a non-empty (truthy) string, the skip
    test excludes exactly the dates missing from the table, and no count is
    dropped or double-counted for a present date. -/
theorem C10_count_conservation (obs : List (Date × Nat))
    (cyc : List (Date × String)) (h : ∀ e ∈ cyc, e.2 ∈ LUNAR_PHASES) :
    (plot_observations_by_lunar_phase obs cyc).length = 8 ∧
    (plot_observations_by_lunar_phase obs cyc).sum =
      ((obs.filter (fun e => (dget cyc e.1).isSome)).map Prod.snd).sum := by
  constructor
  · rfl
  · induction obs with
    | nil => rfl
    | cons e t ih =>
      unfold plot_observations_by_lunar_phase at ih ⊢
      have hcons : (LUNAR_PHASES.map (phase_counts (e :: t) cyc)).sum =
          (LUNAR_PHASES.map (fun q => bucket_step cyc (fun _ => 0) e q)).sum +
          (LUNAR_PHASES.map (phase_counts t cyc)).sum := by
        rw [show LUNAR_PHASES.map (phase_counts (e :: t) cyc) =
            LUNAR_PHASES.map (fun q =>
              bucket_step cyc (fun _ => 0) e q + phase_counts t cyc q) from
          List.map_congr_left (fun q _ => phase_counts_cons t cyc e q)]
        exact List.sum_map_add
      rw [hcons, ih]
      cases hd : dget cyc e.1 with
      | none =>
        rw [List.filter_cons_of_neg (by simp [hd])]
        rw [show LUNAR_PHASES.map (fun q => bucket_step cyc (fun _ => 0) e q) =
            LUNAR_PHASES.map (fun _ => 0) from
          List.map_congr_left (fun q _ => bucket_step_zero_none cyc e hd q)]
        simp
      | some p =>
        have hpm : p ∈ LUNAR_PHASES := h (e.1, p) (dget_mem cyc e.1 p hd)
        have hpne : p ≠ "" := mem_LUNAR_PHASES_ne_empty p hpm
        rw [List.filter_cons_of_pos (by simp [hd])]
        rw [show LUNAR_PHASES.map (fun q => bucket_step cyc (fun _ => 0) e q) =
            LUNAR_PHASES.map (fun q => if q = p then e.2 else 0) from
          List.map_congr_left (fun q _ => bucket_step_zero_some cyc e p hd hpne q)]
        rw [sum_map_indicator LUNAR_PHASES p e.2 LUNAR_PHASES_nodup hpm]
        rw [List.map_cons, List.sum_cons]

/-- Witness for C10 on a two-entry observation dict over a one-day table: the
    present date's count lands in the bars, the absent one is excluded. -/
theorem C10_count_conservation_witness :
    (plot_observations_by_lunar_phase
        [(⟨2024, 1, 1⟩, 3), (⟨2024, 1, 2⟩, 5)]
        [(⟨2024, 1, 1⟩, "Waxing Gibbous")]).length = 8 ∧
    (plot_observations_by_lunar_phase
        [(⟨2024, 1, 1⟩, 3), (⟨2024, 1, 2⟩, 5)]
        [(⟨2024, 1, 1⟩, "Waxing Gibbous")]).sum =
      ((([(⟨2024, 1, 1⟩, 3), (⟨2024, 1, 2⟩, 5)] :
          List (Date × Nat)).filter
        (fun e => (dget [(⟨2024, 1, 1⟩, "Waxing Gibbous")] e.1).isSome)).map
        Prod.snd).sum :=
  C10_count_conservation [(⟨2024, 1, 1⟩, 3), (⟨2024, 1, 2⟩, 5)]
    [(⟨2024, 1, 1⟩, "Waxing Gibbous")]
    (by
      intro e he
      fin_cases he
      simp [LUNAR_PHASES])

lemma phase_counts_perm (obs₁ obs₂ : List (Date × Nat))
    (cyc : List (Date × String)) (h : obs₁.Perm obs₂) :
    phase_counts obs₁ cyc = phase_counts obs₂ cyc := by
  funext q
  rw [phase_counts_eq_sum, phase_counts_eq_sum]
  exact ((h.filter _).map Prod.snd).sum_eq

lemma phase_counts_dget_congr (obs : List (Date × Nat))
    (cyc₁ cyc₂ : List (Date × String)) (h : ∀ k, dget cyc₁ k = dget cyc₂ k) :
    phase_counts obs cyc₁ = phase_counts obs cyc₂ := by
  funext q
  rw [phase_counts_eq_sum, phase_counts_eq_sum]
  congr 1
  congr 1
  apply List.filter_congr
  intro e _
  rw [h e.1]

lemma month_table_keys (y : Int) (m : Nat) (h1 : 1 ≤ m) (h2 : m ≤ 12) :
    (get_lunar_cycle_core y m).map Prod.fst =
      (List.range (daysInMonth y m)).map (fun i => ⟨y, m, 1 + i⟩) := by
  rw [get_lunar_cycle_core_eq y m h1 h2, List.map_map]
  rfl

lemma month_table_keys_nodup (y : Int) (m : Nat) (h1 : 1 ≤ m) (h2 : m ≤ 12) :
    ((get_lunar_cycle_core y m).map Prod.fst).Nodup := by
  rw [month_table_keys y m h1 h2]
  apply List.Nodup.map
  · intro a b hab
    have := congrArg Date.day hab
    simpa using this
  · exact List.nodup_range _

lemma month_table_keys_month (y : Int) (m : Nat) (h1 : 1 ≤ m) (h2 : m ≤ 12)
    (k : Date) (hk : k ∈ (get_lunar_cycle_core y m).map Prod.fst) :
    k.month = m := by
  rw [month_table_keys y m h1 h2] at hk
  rw [List.mem_map] at hk
  obtain ⟨i, _, rfl⟩ := hk
  rfl

/-- The PhaseTable main builds for month i+1 of a given year: the payload of
    get_lunar_cycle_for_month (for an in-range year). -/
def month_table (y : Int) (i : Fin 12) : List (Date × String) :=
  get_lunar_cycle_core y (i.1 + 1)

lemma finRange_map_perm {β : Type} (σ : Equiv.Perm (Fin 12)) (f : Fin 12 → β) :
    ((List.finRange 12).map (fun i => f (σ i))).Perm ((List.finRange 12).map f) := by
  have hσ : ((List.finRange 12).map σ).Perm (List.finRange 12) := by
    apply List.perm_of_nodup_nodup_toFinset_eq
    · exact (List.nodup_finRange 12).map σ.injective
    · exact List.nodup_finRange 12
    · ext x
      simp only [List.mem_toFinset, List.mem_map, List.mem_finRange, iff_true]
      exact ⟨σ.symm x, by simp⟩
  have hmap := hσ.map f
  rw [List.map_map] at hmap
  exact hmap

set_option maxRecDepth 16384 in
set_option maxHeartbeats 2000000 in
lemma year_table_keys_nodup (y : Int) :
    ((((List.finRange 12).map (month_table y)).flatten).map Prod.fst).Nodup := by
  rw [List.map_flatten, List.map_map]
  rw [List.nodup_flatten]
  constructor
  · intro s hs
    rw [List.mem_map] at hs
    obtain ⟨i, _, rfl⟩ := hs
    simp only [Function.comp_apply]
    have hi := i.isLt
    unfold month_table
    exact month_table_keys_nodup y (i.1 + 1) (by omega) (by omega)
  · apply List.Pairwise.map
    · intro i j hij
      intro k hki hkj
      have hi := i.isLt
      have hj := j.isLt
      simp only [Function.comp_apply] at hki hkj
      unfold month_table at hki hkj
      have h1 : k.month = i.1 + 1 :=
        month_table_keys_month y (i.1 + 1) (by omega) (by omega) k hki
      have h2 : k.month = j.1 + 1 :=
        month_table_keys_month y (j.1 + 1) (by omega) (by omega) k hkj
      exact absurd (Fin.ext (show i.1 = j.1 by omega)) (Fin.ne_of_lt hij)
    · exact List.pairwise_lt_finRange 12

/-- C5: year-level aggregation is order-independent.  For any family of
    twelve per-month observation dicts and the twelve per-month phase tables
    of a year, merging the months into the year-scope accumulators
    (additive merge of counts, dict.update merge of tables, both modelled by
    in-order insertion) and bucketing yields the same rendered histogram for
    the months processed in order 1..12 and in any permuted order. -/
theorem C5_aggregation_order_independent (y : Int)
    (obs : Fin 12 → List (Date × Nat)) (σ : Equiv.Perm (Fin 12)) :
    plot_observations_by_lunar_phase
        (((List.finRange 12).map (fun i => obs (σ i))).flatten)
        (((List.finRange 12).map (fun i => month_table y (σ i))).flatten) =
      plot_observations_by_lunar_phase
        (((List.finRange 12).map obs).flatten)
        (((List.finRange 12).map (month_table y)).flatten) := by
  have hobs : (((List.finRange 12).map (fun i => obs (σ i))).flatten).Perm
      (((List.finRange 12).map obs).flatten) :=
    (finRange_map_perm σ obs).flatten
  have htbl : (((List.finRange 12).map (fun i => month_table y (σ i))).flatten).Perm
      (((List.finRange 12).map (month_table y)).flatten) :=
    (finRange_map_perm σ (month_table y)).flatten
  have hnd : ((((List.finRange 12).map (fun i => month_table y (σ i))).flatten).map
      Prod.fst).Nodup :=
    ((htbl.map Prod.fst).nodup_iff).mpr (year_table_keys_nodup y)
  have hdg := dget_congr_of_perm _ _ htbl hnd
  unfold plot_observations_by_lunar_phase
  rw [phase_counts_dget_congr _ _ _ hdg,
    phase_counts_perm _ _ _ hobs]

/-- The per_page request parameter of get_inaturalist_daily_observations. -/
def per_page : Nat := 200

/-- Page-fetch loop of get_inaturalist_daily_observations over an abstract
    paginated source (page number, 1-indexed, to the observed_on dates of that
    page's results): while True, fetch the page; break before accumulating
    when it is empty, accumulate, break when it held fewer than per_page
    results, else advance to the next page.  The returned list carries every
    accumulated result; fuel only makes the recursion structural and the
    theorems below show any fuel from the first short page on gives the same
    answer, which is the loop's termination. -/
def fetch_pages (src : Nat → List String) : Nat → Nat → List String
  | _, 0 => []
  | page, fuel + 1 =>
    let results := src page
    if results.length = 0 then []
    else if results.length < per_page then results
    else results ++ fetch_pages src (page + 1) fuel

/-- get_inaturalist_daily_observations: the defaultdict(int) built by adding 1
    under each result's observed_on key, i.e. the per-day multiplicity of each
    date among all accumulated results. -/
def get_inaturalist_daily_observations (src : Nat → List String) (fuel : Nat)
    (d : String) : Nat :=
  (fetch_pages src 1 fuel).count d

lemma fetch_pages_from (src : Nat → List String) (N : Nat)
    (hshort : (src N).length < per_page)
    (hfull : ∀ k, 1 ≤ k → k < N → (src k).length = per_page) :
    ∀ fuel j, 1 ≤ j → j ≤ N → N - j < fuel →
      fetch_pages src j fuel =
        ((List.range (N + 1 - j)).map (fun i => src (j + i))).flatten := by
  intro fuel
  induction fuel with
  | zero => intro j _ _ hf; omega
  | succ f ih =>
    intro j hj1 hjN hf
    by_cases hjeq : j = N
    · subst hjeq
      rw [show j + 1 - j = 1 from by omega]
      rw [map_range_succ_cons]
      simp only [List.range_zero, List.map_nil, List.flatten_cons, List.flatten_nil,
        List.append_nil, Nat.add_zero]
      rw [fetch_pages]
      by_cases hz : (src j).length = 0
      · rw [if_pos hz]
        exact (List.eq_nil_of_length_eq_zero hz).symm
      · rw [if_neg hz, if_pos hshort]
    · have hjlt : j < N := by omega
      have hflen : (src j).length = per_page := hfull j hj1 hjlt
      rw [fetch_pages]
      rw [if_neg (by rw [hflen]; unfold per_page; omega)]
      rw [if_neg (by rw [hflen]; omega)]
      rw [ih (j + 1) (by omega) (by omega) (by omega)]
      rw [show N + 1 - j = (N - j) + 1 from by omega]
      rw [map_range_succ_cons]
      rw [List.flatten_cons]
      congr 1
      rw [show N + 1 - (j + 1) = N - j from by omega]
      congr 1
      apply List.map_congr_left
      intro i _
      rw [show j + 1 + i = j + (i + 1) from by omega]

/-- C8: for every paginated source with a first short page N (fewer results
    than the page size 200), the fetch loop terminates there — any fuel of at
    least N pages returns the same accumulated list, namely the concatenation
    of pages 1..N — and the per-day counts are the sums of the same-day counts
    across exactly those pages. -/
theorem C8_pagination_terminates (src : Nat → List String) (N : Nat)
    (hN : 1 ≤ N) (hshort : (src N).length < per_page)
    (hfull : ∀ k, 1 ≤ k → k < N → (src k).length = per_page)
    (fuel : Nat) (hfuel : N ≤ fuel) :
    fetch_pages src 1 fuel = ((List.range N).map (fun i => src (1 + i))).flatten ∧
    ∀ d, get_inaturalist_daily_observations src fuel d =
      ((List.range N).map (fun i => (src (1 + i)).count d)).sum := by
  have h1 := fetch_pages_from src N hshort hfull fuel 1 (le_refl 1) hN (by omega)
  rw [show N + 1 - 1 = N from by omega] at h1
  refine ⟨h1, ?_⟩
  intro d
  unfold get_inaturalist_daily_observations
  rw [h1, List.count_flatten, List.map_map]
  rfl

/-- Witness for C8 on a source whose first page already holds fewer than 200
    results: the loop stops after page 1 and counts each date's occurrences. -/
theorem C8_pagination_terminates_witness :
    fetch_pages (fun _ => ["2024-01-01", "2024-01-01", "2024-01-02"]) 1 1 =
      ["2024-01-01", "2024-01-01", "2024-01-02"] ∧
    get_inaturalist_daily_observations
      (fun _ => ["2024-01-01", "2024-01-01", "2024-01-02"]) 1 "2024-01-01" = 2 := by
  obtain ⟨h1, h2⟩ := C8_pagination_terminates
    (fun _ => ["2024-01-01", "2024-01-01", "2024-01-02"]) 1 (le_refl 1)
    (by unfold per_page; norm_num)
    (by intro k hk1 hk2; omega)
    1 (le_refl 1)
  constructor
  · rw [h1]
    rfl
  · rw [h2 "2024-01-01"]
    rfl
